import Mathlib

/-
Verification of the process/task subsystem of the os5 kernel
(LearningOS lab, chapter 5: stride scheduling, fork/exec/spawn/waitpid,
anonymous mmap, per-task syscall statistics).

The Rust sources under src/os5/src are embedded shallowly:
machine integers (u64 / usize / u32) become Nat with explicit reduction
modulo 2^64 / 2^32 where the Rust code can wrap (release-mode wrapping
semantics), `Arc<TaskControlBlock>` sharing becomes explicit value
passing, and the few items of the repository that are not shipped under
src/ (config.rs, pid.rs, mm/memory_set.rs, task/context.rs, timer.rs)
are modelled from the specification, each marked in its doc comment.
-/

set_option autoImplicit false
set_option maxRecDepth 4000

namespace OS5

/-- Modelled from the spec: config.rs is not under src/.  The spec gives
`BIG_STRIDE` as a platform constant, "e.g. 1<<20"; nothing below depends
on its exact value beyond it being far smaller than 2^64. -/
def BIG_STRIDE : Nat := 1 <<< 20

/-- Modelled from the spec: config.rs is not under src/.  The dispatcher
counts syscall ids below 500 and the counter array has
`MAX_SYSCALL_NUM` entries, which the spec's hook description ties to the
same bound. -/
def MAX_SYSCALL_NUM : Nat := 500

/-- Modelled from the spec: 4 KiB pages (spec section on the frame
allocator). -/
def PAGE_SIZE : Nat := 4096

/-- Modulus of the 64-bit machine words (u64 / usize). -/
def U64MOD : Nat := 2 ^ 64

/-- Modulus of u32 (the per-syscall counters). -/
def U32MOD : Nat := 2 ^ 32

/-- Release-mode wrapping subtraction on u64 / usize values. -/
def wrapSub (a b : Nat) : Nat := (a % U64MOD + (U64MOD - b % U64MOD)) % U64MOD

/-! ## Stride scheduler: `TaskManager::fetch` (src/os5/src/task/manager.rs)

The scan keeps a current choice `(minIdx, minPass)`; a later queue entry
replaces it only when `(previous entry's pass - its pass)`, computed with
wrapping u64 subtraction and read as a non-negative i128, lies in
`(0, BIG_STRIDE/2]` and its pass is below `minPass` in the plain u64
order.  `scanGo l prev idx minIdx minPass` is the loop body after the
`idx = 0` iteration, with `l` the queue entries from position `idx` on
and `prev` the pass of the entry at `idx - 1`. -/

/-- Loop of `TaskManager::fetch` over the pass values of the ready queue. -/
def scanGo : List Nat → Nat → Nat → Nat → Nat → Nat
  | [], _, _, minIdx, _ => minIdx
  | cur :: rest, prev, idx, minIdx, minPass =>
    if 0 < wrapSub prev cur ∧ wrapSub prev cur ≤ BIG_STRIDE / 2 ∧ cur < minPass then
      scanGo rest cur (idx + 1) idx cur
    else
      scanGo rest cur (idx + 1) minIdx minPass

/-- Index removed by `TaskManager::fetch`: the `idx = 0` iteration sets
`(minIdx, minPass) := (0, pass of the front)`, then the scan runs. -/
def selIdx : List Nat → Nat
  | [] => 0
  | p0 :: rest => scanGo rest p0 1 0 p0

/-- A position the scan of `fetch` can select: the front of the queue, or
a position whose pass is wrap-safe-below the pass of the entry just
before it. -/
def cand (ps : List Nat) (j : Nat) : Prop :=
  j = 0 ∨ (0 < j ∧ 0 < wrapSub (ps.getD (j - 1) 0) (ps.getD j 0) ∧
    wrapSub (ps.getD (j - 1) 0) (ps.getD j 0) ≤ BIG_STRIDE / 2)

instance candDecidable (ps : List Nat) (j : Nat) : Decidable (cand ps j) := by
  unfold cand; infer_instance

/-- The spec's wrap-safe strict order on pass values, written from the
spec's words: `a` counts as strictly less than `b` exactly when `b - a`,
computed on u64 and read as a signed 128-bit quantity, is positive and
at most `BIG_STRIDE/2`. -/
def passLtSpec (a b : Nat) : Prop :=
  0 < wrapSub b a ∧ wrapSub b a ≤ BIG_STRIDE / 2

instance passLtSpecDecidable (a b : Nat) : Decidable (passLtSpec a b) := by
  unfold passLtSpec; infer_instance

lemma drop_cons_elim {ps : List Nat} {idx : Nat} {cur : Nat} {rest : List Nat}
    (h : ps.drop idx = cur :: rest) :
    ps.getD idx 0 = cur ∧ ps.drop (idx + 1) = rest ∧ idx < ps.length := by
  induction ps generalizing idx with
  | nil => simp at h
  | cons a tl ih =>
    cases idx with
    | zero =>
      simp only [List.drop_zero] at h
      cases h
      refine ⟨rfl, by simp, by simp⟩
    | succ n =>
      simp only [List.drop_succ_cons] at h
      obtain ⟨h1, h2, h3⟩ := ih h
      refine ⟨h1, ?_, by simpa using h3⟩
      simpa using h2

/-- Invariant of the scan: the running choice is a candidate whose pass is
minimal, in the plain u64 order, among the candidates seen so far; the
final result keeps this over the whole queue. -/
lemma scanGo_spec (ps : List Nat) :
    ∀ (l : List Nat) (prev idx minIdx minPass : Nat),
      ps.drop idx = l → 0 < idx → idx ≤ ps.length → minIdx < idx →
      prev = ps.getD (idx - 1) 0 →
      minPass = ps.getD minIdx 0 → cand ps minIdx →
      (∀ j, j < idx → cand ps j → minPass ≤ ps.getD j 0) →
      scanGo l prev idx minIdx minPass < ps.length ∧
      cand ps (scanGo l prev idx minIdx minPass) ∧
      (∀ j, j < ps.length → cand ps j →
        ps.getD (scanGo l prev idx minIdx minPass) 0 ≤ ps.getD j 0) := by
  intro l
  induction l with
  | nil =>
    intro prev idx minIdx minPass hdrop hpos hle hlt hprev hmp hcand hmin
    have hlen : ps.length ≤ idx := by
      by_contra hcon
      push_neg at hcon
      have := List.drop_eq_nil_iff.mp hdrop
      omega
    have hlen2 : idx = ps.length := le_antisymm hle hlen
    refine ⟨?_, ?_, ?_⟩
    · simp only [scanGo]; omega
    · simpa [scanGo] using hcand
    · intro j hj hcj
      simp only [scanGo]
      exact hmp ▸ hmin j (by omega) hcj
  | cons cur rest ih =>
    intro prev idx minIdx minPass hdrop hpos hle hlt hprev hmp hcand hmin
    obtain ⟨hcur, hrest, hidxlt⟩ := drop_cons_elim hdrop
    simp only [scanGo]
    by_cases hcond : 0 < wrapSub prev cur ∧
        wrapSub prev cur ≤ BIG_STRIDE / 2 ∧ cur < minPass
    · rw [if_pos hcond]
      have hcandidx : cand ps idx := by
        right
        refine ⟨hpos, ?_, ?_⟩
        · rw [hcur, ← hprev]; exact hcond.1
        · rw [hcur, ← hprev]; exact hcond.2.1
      exact ih cur (idx + 1) idx cur hrest (by omega) (by omega) (by omega)
        (by simpa using hcur.symm) hcur.symm hcandidx (by
          intro j hj hcj
          rcases Nat.lt_succ_iff_lt_or_eq.mp hj with hj1 | hj2
          · exact le_of_lt (lt_of_lt_of_le hcond.2.2 (hmp ▸ hmin j hj1 hcj))
          · subst hj2
            rw [hcur])
    · rw [if_neg hcond]
      exact ih cur (idx + 1) minIdx minPass hrest (by omega) (by omega) (by omega)
        (by simpa using hcur.symm) hmp hcand (by
          intro j hj hcj
          rcases Nat.lt_succ_iff_lt_or_eq.mp hj with hj1 | hj2
          · exact hmin j hj1 hcj
          · subst hj2
            rcases hcj with hj0 | ⟨hjpos, hq1, hq2⟩
            · omega
            · rw [hcur]
              by_contra hcon
              push_neg at hcon
              rw [hcur, ← hprev] at hq1 hq2
              exact hcond ⟨hq1, hq2, hcon⟩)

/-- The index picked by the whole scan of `fetch` is a candidate position
of minimal pass in the plain u64 order. -/
lemma selIdx_spec (ps : List Nat) (h : ps ≠ []) :
    selIdx ps < ps.length ∧ cand ps (selIdx ps) ∧
      ∀ j, j < ps.length → cand ps j → ps.getD (selIdx ps) 0 ≤ ps.getD j 0 := by
  cases ps with
  | nil => exact absurd rfl h
  | cons p0 rest =>
    have := scanGo_spec (p0 :: rest) rest p0 1 0 p0 (by simp) (by omega) (by simp) (by omega)
      rfl rfl (Or.inl rfl) ?_
    · simpa [selIdx] using this
    · intro j hj _
      interval_cases j
      simp

/-! ## Data model

The task-control structures of src/os5/src/task/task.rs and
src/os5/src/trap/context.rs.  The mutable inner block and the immutable
outer block of the Rust `TaskControlBlock` are merged, since the
embedding passes whole values.  `children` holds the child blocks one
level deep (`ChildTCB := TCBData`); no operation verified here reads a
grandchild.  A `Weak<TaskControlBlock>` parent link is embedded as the
parent's pid. -/

/-- Trap context (src/os5/src/trap/context.rs): general registers x0..x31,
the SPP bit of sstatus, sepc, and the three kernel fields. -/
structure TrapContext where
  x : List Nat
  sstatus_spp_user : Bool
  sepc : Nat
  kernel_satp : Nat
  kernel_sp : Nat
  trap_handler : Nat
deriving DecidableEq

/-- `TrapContext::app_init_context`: zeroed registers except `x[2] = sp`,
SPP set to user, `sepc = entry`, and the kernel fields. -/
def TrapContext.app_init_context (entry sp kernel_satp kernel_sp trap_handler : Nat) :
    TrapContext :=
  { x := (List.replicate 32 0).set 2 sp
    sstatus_spp_user := true
    sepc := entry
    kernel_satp := kernel_satp
    kernel_sp := kernel_sp
    trap_handler := trap_handler }

/-- Task context (callee-saved registers, `ra`, `sp`).  Modelled from the
spec: task/context.rs is not under src/. -/
structure TaskContext where
  ra : Nat
  sp : Nat
  s : List Nat
deriving DecidableEq

/-- `TaskContext::zero_init`: the all-zero context. -/
def TaskContext.zero_init : TaskContext :=
  { ra := 0, sp := 0, s := List.replicate 12 0 }

/-- Modelled from the spec: the entry address of `trap_return`; its value
is a link-time constant none of the verified properties depend on. -/
def trap_return_addr : Nat := 0

/-- `TaskContext::goto_trap_return(kstack_ptr)`: `ra` at `trap_return`,
`sp` at the kernel-stack top, callee-saved registers zeroed.  Modelled
from the spec: task/context.rs is not under src/. -/
def TaskContext.goto_trap_return (kstack_ptr : Nat) : TaskContext :=
  { ra := trap_return_addr, sp := kstack_ptr, s := List.replicate 12 0 }

/-- `MapPermission` bits R/W/X/U (src/os5/src/mm). -/
structure MapPermission where
  r : Bool
  w : Bool
  x : Bool
  u : Bool
deriving DecidableEq

/-- An address space: the user page mappings (virtual page number and
permissions, one entry per mapped page), the physical page of the
trap-context frame, and the satp token.  The trampoline and the page
table itself are kept out of `mapped`; `recycle_data_pages` empties
`mapped` and keeps the rest. -/
structure MemorySet where
  mapped : List (Nat × MapPermission)
  trap_cx_ppn : Nat
  token : Nat
deriving DecidableEq

/-- Whether a virtual page number is currently mapped. -/
def MemorySet.mappedB (ms : MemorySet) (vpn : Nat) : Bool :=
  ms.mapped.any (fun p => p.1 == vpn)

/-- Permissions of a mapped virtual page number. -/
def MemorySet.lookup (ms : MemorySet) (vpn : Nat) : Option MapPermission :=
  (ms.mapped.find? (fun p => p.1 == vpn)).map (fun p => p.2)

/-- Modelled from the spec: `MemorySet::recycle_data_pages`
(mm/memory_set.rs is not under src/) drops all user data mappings and
retains the table. -/
def MemorySet.recycle_data_pages (ms : MemorySet) : MemorySet :=
  { ms with mapped := [] }

/-- `TaskStatus` (src/os5/src/task/task.rs). -/
inductive TaskStatus where
  | UnInit
  | Ready
  | Running
  | Zombie
deriving DecidableEq

/-- All per-task fields of `TaskControlBlock` (outer pid / kernel stack
and the `TaskControlBlockInner` block), except the children list. -/
structure TCBData where
  pid : Nat
  kernel_stack_top : Nat
  trap_cx_ppn : Nat
  base_size : Nat
  task_cx : TaskContext
  task_status : TaskStatus
  memory_set : MemorySet
  trap_cx : TrapContext
  parent : Option Nat
  exit_code : Int
  task_first_time : Nat
  syscall_times : List Nat
  stride : Nat
  pass : Nat
deriving DecidableEq

/-- A task control block together with its children (one level deep). -/
structure TaskControlBlock extends TCBData where
  children : List TCBData
deriving DecidableEq

/-- Placeholder block used as the `getD` default where an index is known
to be in range. -/
def defaultTCB : TaskControlBlock :=
  { pid := 0, kernel_stack_top := 0, trap_cx_ppn := 0, base_size := 0
    task_cx := TaskContext.zero_init, task_status := TaskStatus.UnInit
    memory_set := { mapped := [], trap_cx_ppn := 0, token := 0 }
    trap_cx := { x := List.replicate 32 0, sstatus_spp_user := false, sepc := 0
                 kernel_satp := 0, kernel_sp := 0, trap_handler := 0 }
    parent := none, exit_code := 0, task_first_time := 0
    syscall_times := List.replicate MAX_SYSCALL_NUM 0, stride := BIG_STRIDE / 16
    pass := 0, children := [] }

/-- `TaskManager::fetch` (src/os5/src/task/manager.rs): scan the ready
queue as `scanGo` does over the pass values, then `remove(min_idx)`,
returning the removed block.  On the empty queue `remove(0)` yields
`None`. -/
def TaskManager.fetch (q : List TaskControlBlock) :
    Option (TaskControlBlock × List TaskControlBlock) :=
  match q with
  | [] => none
  | _ :: _ =>
    let i := selIdx (q.map (fun t => t.pass))
    some (q.getD i defaultTCB, q.eraseIdx i)

lemma getD_map_pass (q : List TaskControlBlock) (j : Nat) (hj : j < q.length) :
    (q.map (fun t => t.pass)).getD j 0 = (q.getD j defaultTCB).pass := by
  induction q generalizing j with
  | nil => simp at hj
  | cons a tl ih =>
    cases j with
    | zero => simp
    | succ n =>
      have hn : n < tl.length := by simpa using hj
      simpa using ih n hn

/-- A ready-queue block whose fields other than `pass` are immaterial to
the scan of `fetch`. -/
def ctask (pass : Nat) : TaskControlBlock :=
  { defaultTCB with pass := pass }

/-- Claim C1, counterexample: on the queue with pass values
`[2, 2^64 - 4]`, the second task's pass is wrap-safe-strictly-less than
the first task's (the u64 difference `2 - (2^64 - 4)` wraps to `6`,
positive and below `BIG_STRIDE/2`) and the converse comparison fails,
yet `fetch` removes and returns the first task: the scan only replaces
its choice when the candidate's pass is also smaller in the plain u64
order, which `2^64 - 4 < 2` is not. -/
theorem fetch_not_wrapsafe_min :
    TaskManager.fetch [ctask 2, ctask (2 ^ 64 - 4)] =
      some (ctask 2, [ctask (2 ^ 64 - 4)]) ∧
    passLtSpec (2 ^ 64 - 4) 2 ∧ ¬ passLtSpec 2 (2 ^ 64 - 4) := by
  refine ⟨?_, by decide, by decide⟩
  rfl

/-- Claim C1 (amended): for every non-empty ready queue,
`TaskManager::fetch` removes and returns the queued task at a position
`i` that is a scan candidate - the front of the queue, or a position
whose pass is wrap-safe-below the pass of the entry directly before it
(wrapped u64 difference positive and at most `BIG_STRIDE/2`) - and whose
pass is minimal in the plain u64 order among all scan candidates. -/
theorem fetch_selects_min_scan_candidate (q : List TaskControlBlock) (h : q ≠ []) :
    ∃ i, i < q.length ∧ cand (q.map (fun t => t.pass)) i ∧
      (∀ j, j < q.length → cand (q.map (fun t => t.pass)) j →
        (q.getD i defaultTCB).pass ≤ (q.getD j defaultTCB).pass) ∧
      TaskManager.fetch q = some (q.getD i defaultTCB, q.eraseIdx i) := by
  have hmap : q.map (fun t => t.pass) ≠ [] := by
    simpa using h
  obtain ⟨h1, h2, h3⟩ := selIdx_spec (q.map (fun t => t.pass)) hmap
  rw [List.length_map] at h1
  refine ⟨selIdx (q.map (fun t => t.pass)), h1, h2, ?_, ?_⟩
  · intro j hj hcj
    have := h3 j (by simpa using hj) hcj
    rwa [getD_map_pass q _ h1, getD_map_pass q j hj] at this
  · cases q with
    | nil => exact absurd rfl h
    | cons a tl => rfl

/-- Witness for the amended claim C1 at the concrete queue
`[pass 5, pass 3]`: both positions are scan candidates, so the task with
pass 3 is removed and returned. -/
theorem fetch_selects_min_scan_candidate_witness :
    TaskManager.fetch [ctask 5, ctask 3] = some (ctask 3, [ctask 5]) := by
  obtain ⟨i, hi, hc, hmin, heq⟩ :=
    fetch_selects_min_scan_candidate [ctask 5, ctask 3] (by simp)
  have hi2 : i < 2 := by simpa using hi
  interval_cases i
  · exfalso
    have h1 := hmin 1 (by simp) (by decide)
    revert h1
    decide
  · exact heq.trans rfl

/-! ## Dispatch and task statistics

`run_tasks` (src/os5/src/task/processor.rs lines 50-73) marks the
fetched task Running, records `task_first_time = get_time_us()` on the
first dispatch (the raw microsecond reading), and adds the stride to the
pass.  `sys_task_info` (src/os5/src/syscall/process.rs lines 148-159)
then computes `get_time_us() / 1000 - task_first_time`. -/

/-- Effect of one `run_tasks` dispatch on the fetched task, with `now_us`
the value `get_time_us()` returns at that moment. -/
def dispatch (t : TaskControlBlock) (now_us : Nat) : TaskControlBlock :=
  { t with
    task_status := TaskStatus.Running
    task_first_time := if t.task_first_time = 0 then now_us else t.task_first_time
    pass := (t.pass + t.stride) % U64MOD }

/-- `get_current_task_syscall_times` (src/os5/src/task/mod.rs): copy the
counter vector entry by entry into a `MAX_SYSCALL_NUM` array. -/
def get_current_task_syscall_times (t : TaskControlBlock) : List Nat :=
  (List.range MAX_SYSCALL_NUM).map (fun i => t.syscall_times.getD i 0)

/-- The user-visible `TaskInfo` record. -/
structure TaskInfo where
  status : TaskStatus
  syscall_times : List Nat
  time : Nat
deriving DecidableEq

/-- `sys_task_info` (src/os5/src/syscall/process.rs): the record written
through the translated user pointer, with `now_us` the value
`get_time_us()` returns during the call.  `time` is computed as
`now_us / 1000 - task_first_time` with usize (wrapping) subtraction. -/
def sys_task_info (now_us : Nat) (t : TaskControlBlock) : TaskInfo :=
  { status := TaskStatus.Running
    syscall_times := get_current_task_syscall_times t
    time := wrapSub (now_us / 1000) t.task_first_time }

/-- Claim C2: the claim is right and the code is wrong.  The scheduler
records the first-dispatch instant in microseconds
(`task_first_time = get_time_us()` in `run_tasks`), but `sys_task_info`
subtracts that microsecond value from `get_time_us() / 1000`, a
millisecond value.  First dispatch at 1000000 us and a `task_info` call
at 2000000 us should yield 1000 elapsed milliseconds; the code's usize
subtraction `2000 - 1000000` instead wraps to `2^64 - 998000`.  The
sibling implementation src/os4 divides by 1000 before recording,
confirming the intended unit.  The status and counter fields do match
the claim. -/
theorem sys_task_info_time_unit_bug :
    (dispatch (ctask 0) 1000000).task_first_time = 1000000 ∧
    (sys_task_info 2000000 (dispatch (ctask 0) 1000000)).time = 2 ^ 64 - 998000 ∧
    2000000 / 1000 - (dispatch (ctask 0) 1000000).task_first_time / 1000 = 1000 ∧
    (2 ^ 64 - 998000 : Nat) ≠ 1000 ∧
    (sys_task_info 2000000 (dispatch (ctask 0) 1000000)).status = TaskStatus.Running ∧
    (sys_task_info 2000000 (dispatch (ctask 0) 1000000)).syscall_times =
      (ctask 0).syscall_times := by
  refine ⟨rfl, by decide, by decide, by decide, rfl, by decide⟩

/-! ## Syscall dispatcher counter hook (src/os5/src/syscall/mod.rs) -/

/-- `update_current_task_syscall_times` (src/os5/src/task/mod.rs): bump
the counter at `syscall_id` if the index is inside the vector
(`get_mut` returning `None` leaves everything unchanged); u32 wrapping
increment. -/
def update_current_task_syscall_times (times : List Nat) (syscall_id : Nat) : List Nat :=
  match times.get? syscall_id with
  | some v => times.set syscall_id ((v + 1) % U32MOD)
  | none => times

/-- The pre-dispatch hook of `syscall()` (src/os5/src/syscall/mod.rs
lines 32-35): ids below 500 are counted, all before the handler match
runs. -/
def syscall_times_hook (times : List Nat) (syscall_id : Nat) : List Nat :=
  if syscall_id < 500 then update_current_task_syscall_times times syscall_id else times

/-- Claim C9: for every dispatch with id < 500 the hook of `syscall()`
increments exactly the current task's counter `syscall_times[id]` (u32
arithmetic), leaving every other entry unchanged, and for id >= 500 it
changes nothing, the counter vector having its `MAX_SYSCALL_NUM` = 500
creation-time length. -/
theorem syscall_times_hook_spec (times : List Nat) (syscall_id : Nat)
    (hlen : times.length = MAX_SYSCALL_NUM) :
    (syscall_id < 500 →
      (syscall_times_hook times syscall_id).get? syscall_id =
        some ((times.getD syscall_id 0 + 1) % U32MOD) ∧
      ∀ j, j ≠ syscall_id → (syscall_times_hook times syscall_id).get? j = times.get? j) ∧
    (500 ≤ syscall_id → syscall_times_hook times syscall_id = times) := by
  constructor
  · intro hid
    have hin : syscall_id < times.length := by rw [hlen]; exact hid
    have hget : times.get? syscall_id = some (times.getD syscall_id 0) := by
      rw [List.getD_eq_getElem?_getD, List.get?_eq_getElem?]
      cases hx : times[syscall_id]? with
      | none => exact absurd (List.getElem?_eq_none_iff.mp hx) (by omega)
      | some v => rfl
    constructor
    · simp only [syscall_times_hook, if_pos hid, update_current_task_syscall_times, hget]
      rw [List.get?_eq_getElem?]
      rw [List.getElem?_set_self (by simpa using hin)]
    · intro j hj
      simp only [syscall_times_hook, if_pos hid, update_current_task_syscall_times, hget]
      rw [List.get?_eq_getElem?, List.get?_eq_getElem?]
      rw [List.getElem?_set_ne (by omega)]
  · intro hid
    simp only [syscall_times_hook, if_neg (by omega : ¬ syscall_id < 500)]

/-- Witness for claim C9: counting id 64 on the fresh counter vector sets
entry 64 to 1 and leaves entry 63 alone. -/
theorem syscall_times_hook_spec_witness :
    (syscall_times_hook (List.replicate 500 0) 64).get? 64 = some 1 ∧
    (syscall_times_hook (List.replicate 500 0) 64).get? 63 =
      (List.replicate 500 (0 : Nat)).get? 63 := by
  have h := syscall_times_hook_spec (List.replicate 500 0) 64 (by decide)
  have h2 := h.1 (by omega)
  refine ⟨?_, h2.2 63 (by omega)⟩
  have he : (((List.replicate 500 (0 : Nat)).getD 64 0 + 1) % U32MOD) = 1 := by decide
  rw [← he]
  exact h2.1

/-! ## Task creation (src/os5/src/task/task.rs)

`MemorySet::from_elf` is not under src/; its result is passed in as the
triple `(ms, user_sp, entry_point)` the callers destructure, and the
`translate(TRAP_CONTEXT)` lookup is the `trap_cx_ppn` field of the
address-space value.  The pid and kernel-stack-top values produced by
the pid allocator are likewise parameters. -/

/-- `TaskControlBlock::new` (initproc creation). -/
def TaskControlBlock.new (ms : MemorySet) (user_sp entry_point : Nat)
    (pid kernel_stack_top kernel_satp trap_handler : Nat) : TaskControlBlock :=
  { pid := pid
    kernel_stack_top := kernel_stack_top
    trap_cx_ppn := ms.trap_cx_ppn
    base_size := user_sp
    task_cx := TaskContext.goto_trap_return kernel_stack_top
    task_status := TaskStatus.Ready
    memory_set := ms
    trap_cx := TrapContext.app_init_context entry_point user_sp kernel_satp
      kernel_stack_top trap_handler
    parent := none
    children := []
    exit_code := 0
    task_first_time := 0
    syscall_times := List.replicate MAX_SYSCALL_NUM 0
    stride := BIG_STRIDE / 16
    pass := 0 }

/-- The child block built by `TaskControlBlock::fork`: address space
deep-copied from the parent (`from_existed_user` preserves contents
byte for byte, so the copied space is the same value here), trap context
copied with the new kernel-stack top written over `kernel_sp`, parent
set to a weak reference to the caller, fresh statistics and default
stride. -/
def TaskControlBlock.forkChild (parent : TaskControlBlock)
    (pid kernel_stack_top : Nat) : TCBData :=
  { pid := pid
    kernel_stack_top := kernel_stack_top
    trap_cx_ppn := parent.memory_set.trap_cx_ppn
    base_size := parent.base_size
    task_cx := TaskContext.goto_trap_return kernel_stack_top
    task_status := TaskStatus.Ready
    memory_set := parent.memory_set
    trap_cx := { parent.trap_cx with kernel_sp := kernel_stack_top }
    parent := some parent.pid
    exit_code := 0
    task_first_time := 0
    syscall_times := List.replicate MAX_SYSCALL_NUM 0
    stride := BIG_STRIDE / 16
    pass := 0 }

/-- The child block built by `TaskControlBlock::spawn`: a fresh address
space from `from_elf` (not a copy of the parent's), app-initial trap
context, parent set to a weak reference to the caller. -/
def TaskControlBlock.spawnChild (parent : TaskControlBlock) (ms : MemorySet)
    (user_sp entry_point pid kernel_stack_top kernel_satp trap_handler : Nat) : TCBData :=
  { pid := pid
    kernel_stack_top := kernel_stack_top
    trap_cx_ppn := ms.trap_cx_ppn
    base_size := user_sp
    task_cx := TaskContext.goto_trap_return kernel_stack_top
    task_status := TaskStatus.Ready
    memory_set := ms
    trap_cx := TrapContext.app_init_context entry_point user_sp kernel_satp
      kernel_stack_top trap_handler
    parent := some parent.pid
    exit_code := 0
    task_first_time := 0
    syscall_times := List.replicate MAX_SYSCALL_NUM 0
    stride := BIG_STRIDE / 16
    pass := 0 }

/-- Claim C10: every child block built by fork or by spawn starts with
stride `BIG_STRIDE/16` and pass 0, whatever the parent's current stride
and pass are: a priority set by the parent is never inherited. -/
theorem fork_spawn_child_defaults (parent : TaskControlBlock)
    (pid kernel_stack_top : Nat) (ms : MemorySet)
    (user_sp entry_point kernel_satp trap_handler : Nat) :
    (parent.forkChild pid kernel_stack_top).stride = BIG_STRIDE / 16 ∧
    (parent.forkChild pid kernel_stack_top).pass = 0 ∧
    (parent.spawnChild ms user_sp entry_point pid kernel_stack_top
      kernel_satp trap_handler).stride = BIG_STRIDE / 16 ∧
    (parent.spawnChild ms user_sp entry_point pid kernel_stack_top
      kernel_satp trap_handler).pass = 0 :=
  ⟨rfl, rfl, rfl, rfl⟩

/-! ## Priority (src/os5/src/syscall/process.rs, src/os5/src/task/mod.rs) -/

/-- `set_priority` (src/os5/src/task/mod.rs): the current task's stride
becomes `BIG_STRIDE / prio`. -/
def set_priority (t : TaskControlBlock) (prio : Nat) : TaskControlBlock :=
  { t with stride := BIG_STRIDE / prio }

/-- `sys_set_priority` (src/os5/src/syscall/process.rs lines 127-134). -/
def sys_set_priority (t : TaskControlBlock) (prio : Int) : Int × TaskControlBlock :=
  if prio ≤ 1 then (-1, t) else (prio, set_priority t prio.toNat)

/-- Claim C8: `sys_set_priority(prio)` returns -1 exactly when
`prio <= 1`; otherwise it sets the caller's stride to
`BIG_STRIDE / prio` and returns `prio`; and at task creation the default
priority 16 gives stride `BIG_STRIDE / 16`. -/
theorem sys_set_priority_spec (t : TaskControlBlock) (prio : Int) :
    ((sys_set_priority t prio).1 = -1 ↔ prio ≤ 1) ∧
    (1 < prio → (sys_set_priority t prio).1 = prio ∧
      (sys_set_priority t prio).2.stride = BIG_STRIDE / prio.toNat) ∧
    (∀ (ms : MemorySet) (usp ep pid kst ksatp th : Nat),
      (TaskControlBlock.new ms usp ep pid kst ksatp th).stride = BIG_STRIDE / 16) := by
  by_cases h : prio ≤ 1
  · refine ⟨?_, ?_, fun _ _ _ _ _ _ _ => rfl⟩
    · simp only [sys_set_priority, if_pos h]
      exact ⟨fun _ => h, fun _ => trivial⟩
    · intro hc
      omega
  · refine ⟨?_, ?_, fun _ _ _ _ _ _ _ => rfl⟩
    · simp only [sys_set_priority, if_neg h]
      constructor
      · intro hres
        omega
      · intro hle
        exact absurd hle h
    · intro _
      simp only [sys_set_priority, if_neg h]
      exact ⟨trivial, rfl⟩

/-- Witness for claim C8: priority 16 returns 16 and sets stride
`BIG_STRIDE / 16`; priority 1 returns -1. -/
theorem sys_set_priority_spec_witness :
    (sys_set_priority (ctask 0) 16).1 = 16 ∧
    (sys_set_priority (ctask 0) 16).2.stride = BIG_STRIDE / 16 ∧
    (sys_set_priority (ctask 0) 1).1 = -1 := by
  have h16 := (sys_set_priority_spec (ctask 0) 16).2.1 (by norm_num)
  have h1 := (sys_set_priority_spec (ctask 0) 1).1
  refine ⟨h16.1, ?_, h1.mpr (by norm_num)⟩
  have : ((16 : Int)).toNat = 16 := by decide
  rw [h16.2, this]

/-! ## Pid allocation and fork

pid.rs is not under src/.  The allocator is modelled from the spec: a
pool of small non-negative integers that recycles freed ids.  The
kernel-stack top of a new pid, a deterministic function of the pid, is
passed in as the value `KernelStack::get_top()` returns. -/

/-- Modelled from the spec: the pid allocator state, a high-water mark
plus the recycled ids. -/
structure PidAllocator where
  current : Nat
  recycled : List Nat
deriving DecidableEq

/-- Modelled from the spec: `pid_alloc` hands back a recycled id when one
exists, and the high-water mark otherwise. -/
def pid_alloc : PidAllocator → Nat × PidAllocator
  | ⟨cur, []⟩ => (cur, ⟨cur + 1, []⟩)
  | ⟨cur, p :: rest⟩ => (p, ⟨cur, rest⟩)

/-- The allocator state is consistent with a set of live pids: every live
pid is below the high-water mark and not in the recycled pool. -/
def PidAllocator.freshFor (a : PidAllocator) (live : List Nat) : Prop :=
  ∀ p ∈ live, p < a.current ∧ p ∉ a.recycled

instance (a : PidAllocator) (live : List Nat) : Decidable (a.freshFor live) := by
  unfold PidAllocator.freshFor; infer_instance

lemma pid_alloc_fresh (a : PidAllocator) (live : List Nat) (h : a.freshFor live) :
    (pid_alloc a).1 ∉ live := by
  obtain ⟨cur, rec⟩ := a
  cases rec with
  | nil =>
    intro hmem
    exact absurd (h _ hmem).1 (by simp [pid_alloc])
  | cons p rest =>
    intro hmem
    exact (h _ hmem).2 (List.mem_cons_self p rest)

/-- The trap-context write `x[10] = 0` performed by `sys_fork`
(src/os5/src/syscall/process.rs lines 56-59). -/
def setForkChildReturn (c : TCBData) : TCBData :=
  { c with trap_cx := { c.trap_cx with x := c.trap_cx.x.set 10 0 } }

/-- `sys_fork` (src/os5/src/syscall/process.rs lines 52-63 together with
`TaskControlBlock::fork`, src/os5/src/task/task.rs lines 157-202): build
the child from the parent, append it to the parent's children, zero the
child's `x[10]`, return the child's pid.  The `x[10]` write goes through
the shared `Arc` before the child first runs, so the child value held in
the parent's children list carries it; result components are
(return value, parent after, child, allocator after). -/
def sys_fork (parent : TaskControlBlock) (alloc : PidAllocator)
    (kernel_stack_top : Nat) : Int × TaskControlBlock × TCBData × PidAllocator :=
  let pa := pid_alloc alloc
  let child := setForkChildReturn (parent.forkChild pa.1 kernel_stack_top)
  ((child.pid : Int), { parent with children := parent.children ++ [child] },
    child, pa.2)

/-- Claim C5: `sys_fork` creates a child block with a fresh pid, an
address space that is a deep copy of the parent's (byte-identical, hence
the same value here), appends it to the parent's children with the
parent weakly referenced, zeroes the child's `x[10]` so the child
observes fork returning 0, overwrites the child trap context's
`kernel_sp` with the child's kernel-stack top, and returns the child's
pid to the parent. -/
theorem sys_fork_spec (parent : TaskControlBlock) (alloc : PidAllocator)
    (kernel_stack_top : Nat) (live : List Nat)
    (hfresh : alloc.freshFor live)
    (hx : parent.trap_cx.x.length = 32) :
    (sys_fork parent alloc kernel_stack_top).2.2.1.pid ∉ live ∧
    (sys_fork parent alloc kernel_stack_top).2.2.1.memory_set = parent.memory_set ∧
    (sys_fork parent alloc kernel_stack_top).2.1.children =
      parent.children ++ [(sys_fork parent alloc kernel_stack_top).2.2.1] ∧
    (sys_fork parent alloc kernel_stack_top).2.2.1.parent = some parent.pid ∧
    (sys_fork parent alloc kernel_stack_top).2.2.1.trap_cx.x.get? 10 = some 0 ∧
    (sys_fork parent alloc kernel_stack_top).2.2.1.trap_cx.kernel_sp = kernel_stack_top ∧
    (sys_fork parent alloc kernel_stack_top).1 =
      ((sys_fork parent alloc kernel_stack_top).2.2.1.pid : Int) := by
  refine ⟨pid_alloc_fresh alloc live hfresh, rfl, rfl, rfl, ?_, rfl, rfl⟩
  show ((parent.trap_cx.x.set 10 0).get? 10) = some 0
  rw [List.get?_eq_getElem?, List.getElem?_set_self (by omega)]

/-- Witness for claim C5 at a concrete parent (pid 0, 32 zeroed
registers), allocator `{current := 1, recycled := []}`, live pids `[0]`,
kernel-stack top 77. -/
theorem sys_fork_spec_witness :
    (sys_fork (ctask 0) ⟨1, []⟩ 77).2.2.1.pid ∉ ([0] : List Nat) ∧
    (sys_fork (ctask 0) ⟨1, []⟩ 77).2.2.1.memory_set = (ctask 0).memory_set ∧
    (sys_fork (ctask 0) ⟨1, []⟩ 77).2.1.children =
      (ctask 0).children ++ [(sys_fork (ctask 0) ⟨1, []⟩ 77).2.2.1] ∧
    (sys_fork (ctask 0) ⟨1, []⟩ 77).2.2.1.parent = some (ctask 0).pid ∧
    (sys_fork (ctask 0) ⟨1, []⟩ 77).2.2.1.trap_cx.x.get? 10 = some 0 ∧
    (sys_fork (ctask 0) ⟨1, []⟩ 77).2.2.1.trap_cx.kernel_sp = 77 ∧
    (sys_fork (ctask 0) ⟨1, []⟩ 77).1 =
      ((sys_fork (ctask 0) ⟨1, []⟩ 77).2.2.1.pid : Int) :=
  sys_fork_spec (ctask 0) ⟨1, []⟩ 77 [0] (by decide) (by decide)

/-! ## Exit (src/os5/src/task/mod.rs lines 54-85) -/

/-- `exit_current_and_run_next(exit_code)`: mark the current task Zombie,
record the exit code, rebind every child's parent to a weak reference to
initproc and append the children to initproc's list, clear the own
children list, recycle the user data pages, and switch to the idle
context through a throwaway zeroed task context (the exiting task's own
context is not saved).  Result components: (exiting task after, initproc
after, the context value handed to `schedule`/`__switch`). -/
def exit_current_and_run_next (task initproc : TaskControlBlock) (exit_code : Int) :
    TaskControlBlock × TaskControlBlock × TaskContext :=
  let reparented := task.children.map (fun c => { c with parent := some initproc.pid })
  ({ task with
      task_status := TaskStatus.Zombie
      exit_code := exit_code
      children := []
      memory_set := task.memory_set.recycle_data_pages },
    { initproc with children := initproc.children ++ reparented },
    TaskContext.zero_init)

/-- Claim C6: on `exit_current_and_run_next(code)` the task becomes a
Zombie carrying `code`, every child is reparented to initproc (weak
reference) and appended to initproc's children, the own children list
is emptied, the user data pages are recycled, and control switches to
the idle context through a throwaway zero context, the exiting task's
stored context staying untouched.  The hypothesis records that the
exiting task is not initproc itself (on which the real code would
double-borrow and panic). -/
theorem exit_current_and_run_next_spec (task initproc : TaskControlBlock)
    (code : Int) (_h : task.pid ≠ initproc.pid) :
    (exit_current_and_run_next task initproc code).1.task_status = TaskStatus.Zombie ∧
    (exit_current_and_run_next task initproc code).1.exit_code = code ∧
    (exit_current_and_run_next task initproc code).2.1.children =
      initproc.children ++
        task.children.map (fun c => { c with parent := some initproc.pid }) ∧
    (exit_current_and_run_next task initproc code).1.children = [] ∧
    (exit_current_and_run_next task initproc code).1.memory_set.mapped = [] ∧
    (exit_current_and_run_next task initproc code).2.2 = TaskContext.zero_init ∧
    (exit_current_and_run_next task initproc code).1.task_cx = task.task_cx :=
  ⟨rfl, rfl, rfl, rfl, rfl, rfl, rfl⟩

/-- Witness for claim C6: a task with pid 5 and one child exits with
code 7 under the initproc of pid 0. -/
theorem exit_current_and_run_next_spec_witness :
    (exit_current_and_run_next { ctask 0 with pid := 5, children := [(ctask 9).toTCBData] }
      defaultTCB 7).1.task_status = TaskStatus.Zombie ∧
    (exit_current_and_run_next { ctask 0 with pid := 5, children := [(ctask 9).toTCBData] }
      defaultTCB 7).1.exit_code = 7 ∧
    (exit_current_and_run_next { ctask 0 with pid := 5, children := [(ctask 9).toTCBData] }
      defaultTCB 7).2.1.children =
      defaultTCB.children ++
        ({ ctask 0 with pid := 5, children := [(ctask 9).toTCBData] } :
          TaskControlBlock).children.map
            (fun c => { c with parent := some defaultTCB.pid }) ∧
    (exit_current_and_run_next { ctask 0 with pid := 5, children := [(ctask 9).toTCBData] }
      defaultTCB 7).1.children = [] ∧
    (exit_current_and_run_next { ctask 0 with pid := 5, children := [(ctask 9).toTCBData] }
      defaultTCB 7).1.memory_set.mapped = [] ∧
    (exit_current_and_run_next { ctask 0 with pid := 5, children := [(ctask 9).toTCBData] }
      defaultTCB 7).2.2 = TaskContext.zero_init ∧
    (exit_current_and_run_next { ctask 0 with pid := 5, children := [(ctask 9).toTCBData] }
      defaultTCB 7).1.task_cx =
      ({ ctask 0 with pid := 5, children := [(ctask 9).toTCBData] } :
        TaskControlBlock).task_cx :=
  exit_current_and_run_next_spec _ _ 7 (by decide)

/-! ## Exec (src/os5/src/task/task.rs lines 131-155) -/

/-- `TaskControlBlock::exec`: the `from_elf` result (address space,
initial user sp, entry point) replaces the address space and the
trap-context frame, and the trap context is rewritten as for a fresh
process on the task's existing kernel stack.  pid and kernel stack are
untouched. -/
def TaskControlBlock.exec (t : TaskControlBlock) (ms : MemorySet)
    (user_sp entry_point kernel_satp trap_handler : Nat) : TaskControlBlock :=
  { t with
      memory_set := ms
      trap_cx_ppn := ms.trap_cx_ppn
      trap_cx := TrapContext.app_init_context entry_point user_sp kernel_satp
        t.kernel_stack_top trap_handler }

/-- Claim C7: `exec` preserves pid and kernel stack (so `getpid()` agrees
before and after), replaces `memory_set` and `trap_cx_ppn` with those of
the freshly loaded address space, and rewrites the trap context as for a
fresh process: new entry point in `sepc`, new user stack pointer in
`x[2]`, the kernel satp, the same kernel-stack top, and the trap-handler
address. -/
theorem exec_spec (t : TaskControlBlock) (ms : MemorySet)
    (user_sp entry_point kernel_satp trap_handler : Nat) :
    (t.exec ms user_sp entry_point kernel_satp trap_handler).pid = t.pid ∧
    (t.exec ms user_sp entry_point kernel_satp trap_handler).kernel_stack_top =
      t.kernel_stack_top ∧
    (t.exec ms user_sp entry_point kernel_satp trap_handler).memory_set = ms ∧
    (t.exec ms user_sp entry_point kernel_satp trap_handler).trap_cx_ppn =
      ms.trap_cx_ppn ∧
    (t.exec ms user_sp entry_point kernel_satp trap_handler).trap_cx =
      TrapContext.app_init_context entry_point user_sp kernel_satp
        t.kernel_stack_top trap_handler ∧
    (t.exec ms user_sp entry_point kernel_satp trap_handler).trap_cx.sepc =
      entry_point ∧
    (t.exec ms user_sp entry_point kernel_satp trap_handler).trap_cx.x.get? 2 =
      some user_sp ∧
    (t.exec ms user_sp entry_point kernel_satp trap_handler).trap_cx.kernel_sp =
      t.kernel_stack_top ∧
    (t.exec ms user_sp entry_point kernel_satp trap_handler).trap_cx.kernel_satp =
      kernel_satp ∧
    (t.exec ms user_sp entry_point kernel_satp trap_handler).trap_cx.trap_handler =
      trap_handler := by
  refine ⟨rfl, rfl, rfl, rfl, rfl, rfl, ?_, rfl, rfl, rfl⟩
  show (((List.replicate 32 0).set 2 user_sp).get? 2) = some user_sp
  rw [List.get?_eq_getElem?, List.getElem?_set_self (by simp)]

/-! ## Waitpid (src/os5/src/syscall/process.rs lines 79-112)

The `Arc` strong-count assertion before the reaped child is dropped is a
reference-counting side condition outside this value-level embedding;
everything else of `sys_waitpid` is embedded below.  The exit-code store
through `translated_refmut` is returned as the third component. -/

/-- The child filter of `sys_waitpid`:
`pid == -1 || pid as usize == p.getpid()`, the isize-to-usize cast being
reduction modulo 2^64. -/
def childMatches (pid : Int) (c : TCBData) : Bool :=
  pid == -1 || (pid % (2 ^ 64 : Int)).toNat == c.pid

/-- `TaskControlBlockInner::is_zombie`. -/
def TCBData.is_zombie (c : TCBData) : Bool :=
  decide (c.task_status = TaskStatus.Zombie)

/-- Placeholder child used as the `getD` default where an index is known
to be in range. -/
def defaultChild : TCBData := defaultTCB.toTCBData

/-- The `children.iter().enumerate().find(...)` scan of `sys_waitpid`:
first index holding a zombie child that matches `pid`. -/
def findZombieChild : List TCBData → Nat → Int → Option (Nat × TCBData)
  | [], _, _ => none
  | c :: rest, i, pid =>
    if c.is_zombie && childMatches pid c then some (i, c)
    else findZombieChild rest (i + 1) pid

/-- `sys_waitpid(pid, exit_code_ptr)`: -1 when no child matches, -2 when
a match exists but none is a zombie, otherwise remove the found zombie
child, hand its exit code to the store through the translated user
pointer (third component), and return its pid. -/
def sys_waitpid (task : TaskControlBlock) (pid : Int) :
    Int × TaskControlBlock × Option Int :=
  if ! task.children.any (fun c => childMatches pid c) then (-1, task, none)
  else
    match findZombieChild task.children 0 pid with
    | some ic =>
      ((ic.2.pid : Int), { task with children := task.children.eraseIdx ic.1 },
        some ic.2.exit_code)
    | none => (-2, task, none)

/-- The claim's reading of the filter: `pid = -1` matches any child,
otherwise a child matches exactly when its pid equals the argument. -/
def specMatches (pid : Int) (c : TCBData) : Prop :=
  pid = -1 ∨ (c.pid : Int) = pid

instance (pid : Int) (c : TCBData) : Decidable (specMatches pid c) := by
  unfold specMatches; infer_instance

lemma childMatches_iff (pid : Int) (c : TCBData)
    (h1 : -(2 ^ 63) ≤ pid) (h2 : pid < 2 ^ 63) (h3 : c.pid < 2 ^ 63) :
    childMatches pid c = true ↔ specMatches pid c := by
  unfold childMatches specMatches
  rcases eq_or_ne pid (-1) with hm | hm
  · subst hm
    simp
  · have hbe : (pid == -1) = false := by
      simpa using hm
    rw [hbe, Bool.false_or, beq_iff_eq]
    constructor
    · intro he
      right
      omega
    · intro hor
      rcases hor with hc | hc
      · exact absurd hc hm
      · omega

lemma findZombieChild_none_iff (pid : Int) :
    ∀ (l : List TCBData) (k : Nat),
      findZombieChild l k pid = none ↔
        ∀ c ∈ l, (c.is_zombie && childMatches pid c) = false := by
  intro l
  induction l with
  | nil =>
    intro k
    simp [findZombieChild]
  | cons a rest ih =>
    intro k
    simp only [findZombieChild]
    by_cases hc : (a.is_zombie && childMatches pid a) = true
    · rw [if_pos hc]
      constructor
      · intro habs
        exact absurd habs (by simp)
      · intro hall
        exact absurd hc (by simp [hall a (List.mem_cons_self a rest)])
    · rw [if_neg hc, ih (k + 1)]
      constructor
      · intro hall c hcmem
        rcases List.mem_cons.mp hcmem with hh | hh
        · subst hh
          exact Bool.eq_false_iff.mpr hc
        · exact hall c hh
      · intro hall c hcmem
        exact hall c (List.mem_cons_of_mem a hcmem)

lemma getD_mem_of_lt {α : Type} (l : List α) (i : Nat) (d : α) (h : i < l.length) :
    l.getD i d ∈ l := by
  induction l generalizing i with
  | nil => simp at h
  | cons a tl ih =>
    cases i with
    | zero => simp
    | succ n =>
      have hn : n < tl.length := by simpa using h
      simpa using Or.inr (ih n hn)

lemma findZombieChild_some (pid : Int) :
    ∀ (l : List TCBData) (k i : Nat) (c : TCBData),
      findZombieChild l k pid = some (i, c) →
      k ≤ i ∧ i - k < l.length ∧ l.getD (i - k) defaultChild = c ∧
      (c.is_zombie && childMatches pid c) = true := by
  intro l
  induction l with
  | nil =>
    intro k i c h
    simp [findZombieChild] at h
  | cons a rest ih =>
    intro k i c h
    simp only [findZombieChild] at h
    by_cases hc : (a.is_zombie && childMatches pid a) = true
    · rw [if_pos hc] at h
      obtain ⟨hk, ha⟩ : k = i ∧ a = c := by
        have := Option.some.inj h
        exact ⟨congrArg Prod.fst this, congrArg Prod.snd this⟩
      subst hk
      subst ha
      exact ⟨le_refl _, by simp, by simp, hc⟩
    · rw [if_neg hc] at h
      obtain ⟨hk, hlen, hget, hpred⟩ := ih (k + 1) i c h
      have hik : i - k = (i - (k + 1)) + 1 := by omega
      refine ⟨by omega, by simp; omega, ?_, hpred⟩
      rw [hik]
      simpa using hget

/-- Claim C3: for `sys_waitpid(pid, p)`, if no child matches (`pid = -1`
matches any, otherwise equality of pid) the result is -1 with everything
unchanged; if a child matches but no matching child is a Zombie the
result is -2; otherwise one matching zombie child is removed from the
children list, its exit code is written through the translated pointer,
and its pid is returned.  The hypotheses record that the argument is in
the isize range and child pids are in the usize-cast-safe range. -/
theorem sys_waitpid_spec (task : TaskControlBlock) (pid : Int)
    (h1 : -(2 ^ 63) ≤ pid) (h2 : pid < 2 ^ 63)
    (h3 : ∀ c ∈ task.children, c.pid < 2 ^ 63) :
    ((∀ c ∈ task.children, ¬ specMatches pid c) →
      sys_waitpid task pid = (-1, task, none)) ∧
    ((∃ c ∈ task.children, specMatches pid c) →
      (∀ c ∈ task.children, specMatches pid c → c.task_status ≠ TaskStatus.Zombie) →
      sys_waitpid task pid = (-2, task, none)) ∧
    ((∃ c ∈ task.children, specMatches pid c ∧ c.task_status = TaskStatus.Zombie) →
      ∃ i, i < task.children.length ∧
        specMatches pid (task.children.getD i defaultChild) ∧
        (task.children.getD i defaultChild).task_status = TaskStatus.Zombie ∧
        sys_waitpid task pid =
          (((task.children.getD i defaultChild).pid : Int),
            { task with children := task.children.eraseIdx i },
            some (task.children.getD i defaultChild).exit_code)) := by
  refine ⟨?_, ?_, ?_⟩
  · intro hnone
    have hany : task.children.any (fun c => childMatches pid c) = false := by
      rw [← Bool.not_eq_true, List.any_eq_true]
      rintro ⟨c, hcmem, hcm⟩
      exact hnone c hcmem ((childMatches_iff pid c h1 h2 (h3 c hcmem)).mp hcm)
    simp [sys_waitpid, hany]
  · rintro ⟨c0, hc0mem, hc0m⟩ hnz
    have hany : task.children.any (fun c => childMatches pid c) = true := by
      rw [List.any_eq_true]
      exact ⟨c0, hc0mem, (childMatches_iff pid c0 h1 h2 (h3 c0 hc0mem)).mpr hc0m⟩
    have hfind : findZombieChild task.children 0 pid = none := by
      rw [findZombieChild_none_iff]
      intro c hcmem
      rw [Bool.eq_false_iff]
      intro habs
      rw [Bool.and_eq_true] at habs
      exact hnz c hcmem ((childMatches_iff pid c h1 h2 (h3 c hcmem)).mp habs.2)
        (of_decide_eq_true habs.1)
    simp [sys_waitpid, hany, hfind]
  · rintro ⟨c0, hc0mem, hc0m, hc0z⟩
    have hany : task.children.any (fun c => childMatches pid c) = true := by
      rw [List.any_eq_true]
      exact ⟨c0, hc0mem, (childMatches_iff pid c0 h1 h2 (h3 c0 hc0mem)).mpr hc0m⟩
    have hne : ¬ findZombieChild task.children 0 pid = none := by
      rw [findZombieChild_none_iff]
      intro hall
      have := hall c0 hc0mem
      rw [Bool.eq_false_iff] at this
      exact this (by
        rw [Bool.and_eq_true]
        exact ⟨decide_eq_true hc0z,
          (childMatches_iff pid c0 h1 h2 (h3 c0 hc0mem)).mpr hc0m⟩)
    obtain ⟨ic, hic⟩ := Option.ne_none_iff_exists.mp hne
    obtain ⟨i, c⟩ := ic
    obtain ⟨_, hlen, hget, hpred⟩ := findZombieChild_some pid task.children 0 i c hic.symm
    rw [Nat.sub_zero] at hlen hget
    rw [Bool.and_eq_true] at hpred
    refine ⟨i, hlen, ?_, ?_, ?_⟩
    · rw [hget]
      exact (childMatches_iff pid c h1 h2
        (h3 c (hget ▸ getD_mem_of_lt task.children i defaultChild hlen))).mp hpred.2
    · rw [hget]
      exact of_decide_eq_true hpred.1
    · rw [hget]
      simp [sys_waitpid, hany, hic.symm]

/-- Zombie child used by the waitpid witness: pid 3, exit code 7. -/
def wchild : TCBData :=
  { (ctask 0).toTCBData with
      pid := 3, task_status := TaskStatus.Zombie, exit_code := 7 }

/-- Parent used by the waitpid witness: pid 1, one zombie child. -/
def wtask : TaskControlBlock :=
  { ctask 0 with pid := 1, children := [wchild] }

/-- Witness for claim C3: reaping the zombie child pid 3 with
`waitpid(-1)` returns 3, removes the child, and writes exit code 7. -/
theorem sys_waitpid_spec_witness :
    sys_waitpid wtask (-1) = (3, { wtask with children := [] }, some 7) := by
  obtain ⟨i, hi, hm, hz, heq⟩ :=
    (sys_waitpid_spec wtask (-1) (by decide) (by decide) (by decide)).2.2
      ⟨wchild, List.mem_cons_self wchild [], Or.inl rfl, rfl⟩
  have hi1 : i < 1 := hi
  interval_cases i
  exact heq.trans rfl

/-! ## Anonymous mmap (src/os5/src/task/mod.rs lines 88-110)

`mmap` validates the start alignment and the port bits, derives the
permission set, and calls `MemorySet::insert_framed_area`.
mm/memory_set.rs is not under src/, so `insert_framed_area` is modelled
from the spec: it returns 0 on success and fails with -1, changing
nothing, when the start is unaligned, the page-rounded length is zero,
or any page of the range is already mapped (the permission-wellformedness
failure of the spec cannot fire on the `MapPermission` values `mmap`
builds).  The page range of `[start_va, end_va)` is
`[start_va / PAGE_SIZE, ceil(end_va / PAGE_SIZE))`. -/

/-- Round a byte address up to a page count. -/
def pageCeil (a : Nat) : Nat := (a + PAGE_SIZE - 1) / PAGE_SIZE

/-- Virtual page numbers covering the byte range `[start_va, end_va)`. -/
def vpnRange (start_va end_va : Nat) : List Nat :=
  List.range' (start_va / PAGE_SIZE) (pageCeil end_va - start_va / PAGE_SIZE)

/-- Modelled from the spec: `MemorySet::insert_framed_area`
(mm/memory_set.rs is not under src/). -/
def MemorySet.insert_framed_area (ms : MemorySet) (start_va end_va : Nat)
    (perm : MapPermission) : Int × MemorySet :=
  if start_va % PAGE_SIZE ≠ 0 then (-1, ms)
  else if (vpnRange start_va end_va).length = 0 then (-1, ms)
  else if (vpnRange start_va end_va).any (fun v => ms.mappedB v) then (-1, ms)
  else
    (0, { ms with
      mapped := ms.mapped ++ (vpnRange start_va end_va).map (fun v => (v, perm)) })

/-- The permission set `mmap` derives from `port`: U always, and R/W/X
from the low three bits. -/
def mmapPermission (port : Nat) : MapPermission :=
  { r := port &&& 0x1 != 0
    w := port &&& 0x2 != 0
    x := port &&& 0x4 != 0
    u := true }

/-- `mmap(start, len, port)` (src/os5/src/task/mod.rs lines 88-110): the
usize complement `!0x7` is `2^64 - 8`. -/
def mmap (t : TaskControlBlock) (start len port : Nat) : Int × TaskControlBlock :=
  if start % PAGE_SIZE ≠ 0 then (-1, t)
  else if port &&& (U64MOD - 8) ≠ 0 ∨ port &&& 0x7 = 0 then (-1, t)
  else
    ((t.memory_set.insert_framed_area start (start + len) (mmapPermission port)).1,
      { t with
        memory_set :=
          (t.memory_set.insert_framed_area start (start + len) (mmapPermission port)).2 })

lemma find?_append_of_none {α : Type} (p : α → Bool) (l1 l2 : List α)
    (h : l1.find? p = none) : (l1 ++ l2).find? p = l2.find? p := by
  induction l1 with
  | nil => simp
  | cons a tl ih =>
    rw [List.find?_cons] at h
    cases hpa : p a with
    | true => rw [hpa] at h; exact absurd h (by simp)
    | false =>
      rw [hpa] at h
      rw [List.cons_append, List.find?_cons, hpa]
      exact ih h

lemma find?_map_const_perm (perm : MapPermission) (v : Nat) :
    ∀ l : List Nat, v ∈ l →
      ((l.map (fun u => (u, perm))).find? (fun p => p.1 == v)).map
        (fun p => p.2) = some perm := by
  intro l
  induction l with
  | nil => intro h; simp at h
  | cons u tl ih =>
    intro hmem
    rw [List.map_cons]
    by_cases hv : u = v
    · rw [List.find?_cons_of_pos _ (by simpa using hv)]
      rfl
    · rw [List.find?_cons_of_neg _ (by simpa using hv)]
      exact ih (by rcases List.mem_cons.mp hmem with hh | hh
                   · exact absurd hh.symm hv
                   · exact hh)

lemma mappedB_false_find_none (ms : MemorySet) (v : Nat)
    (h : ms.mappedB v = false) : ms.mapped.find? (fun p => p.1 == v) = none := by
  rw [List.find?_eq_none]
  intro x hx
  rw [MemorySet.mappedB, ← Bool.not_eq_true, List.any_eq_true] at h
  intro habs
  exact h ⟨x, hx, habs⟩

lemma vpnRange_len_pos (start len : Nat) (ha : start % PAGE_SIZE = 0)
    (hl : 0 < len) : (vpnRange start (start + len)).length ≠ 0 := by
  rw [vpnRange, List.length_range']
  rw [pageCeil]
  revert ha hl
  rw [PAGE_SIZE]
  omega

lemma insert_framed_area_fail (ms : MemorySet) (s e : Nat) (perm : MapPermission)
    (h : s % PAGE_SIZE ≠ 0 ∨ (vpnRange s e).length = 0 ∨
      (vpnRange s e).any (fun v => ms.mappedB v) = true) :
    ms.insert_framed_area s e perm = (-1, ms) := by
  rw [MemorySet.insert_framed_area]
  by_cases h1 : s % PAGE_SIZE ≠ 0
  · rw [if_pos h1]
  · rw [if_neg h1]
    by_cases h2 : (vpnRange s e).length = 0
    · rw [if_pos h2]
    · rw [if_neg h2]
      rcases h with hh | hh | hh
      · exact absurd hh h1
      · exact absurd hh h2
      · rw [if_pos hh]

lemma insert_framed_area_ok (ms : MemorySet) (s e : Nat) (perm : MapPermission)
    (h1 : s % PAGE_SIZE = 0) (h2 : (vpnRange s e).length ≠ 0)
    (h3 : (vpnRange s e).any (fun v => ms.mappedB v) = false) :
    ms.insert_framed_area s e perm =
      (0, { ms with mapped := ms.mapped ++ (vpnRange s e).map (fun v => (v, perm)) }) := by
  rw [MemorySet.insert_framed_area, if_neg (by omega), if_neg h2,
    if_neg (by rw [h3]; exact Bool.false_ne_true)]

lemma mmap_unaligned (t : TaskControlBlock) (start len port : Nat)
    (h : start % PAGE_SIZE ≠ 0) : mmap t start len port = (-1, t) := by
  rw [mmap, if_pos h]

lemma mmap_badport (t : TaskControlBlock) (start len port : Nat)
    (h1 : ¬ start % PAGE_SIZE ≠ 0)
    (h : port &&& (U64MOD - 8) ≠ 0 ∨ port &&& 0x7 = 0) :
    mmap t start len port = (-1, t) := by
  rw [mmap, if_neg h1, if_pos h]

lemma mmap_inner (t : TaskControlBlock) (start len port : Nat)
    (h1 : ¬ start % PAGE_SIZE ≠ 0)
    (h2 : ¬ (port &&& (U64MOD - 8) ≠ 0 ∨ port &&& 0x7 = 0)) :
    mmap t start len port =
      ((t.memory_set.insert_framed_area start (start + len) (mmapPermission port)).1,
        { t with memory_set :=
          (t.memory_set.insert_framed_area start (start + len) (mmapPermission port)).2 }) := by
  rw [mmap, if_neg h1, if_neg h2]

/-- Claim C4: `sys_mmap(start, len, port)` fails with -1 whenever `start`
is misaligned, `port & !0x7 != 0`, `port & 0x7 == 0`, or a page of
`[start, start + len)` is already mapped; a failure leaves the address
space unchanged (no partial mapping); and in the remaining cases with a
non-empty range every page of the range becomes mapped with the
R/W/X bits of `port` plus U, the call returning 0. -/
theorem mmap_spec (t : TaskControlBlock) (start len port : Nat) :
    ((start % PAGE_SIZE ≠ 0 ∨ port &&& (U64MOD - 8) ≠ 0 ∨ port &&& 0x7 = 0 ∨
        (∃ v ∈ vpnRange start (start + len), t.memory_set.mappedB v = true)) →
      (mmap t start len port).1 = -1) ∧
    ((mmap t start len port).1 = -1 → (mmap t start len port).2 = t) ∧
    ((start % PAGE_SIZE = 0 ∧ port &&& (U64MOD - 8) = 0 ∧ port &&& 0x7 ≠ 0 ∧
        0 < len ∧ (∀ v ∈ vpnRange start (start + len), t.memory_set.mappedB v = false)) →
      (mmap t start len port).1 = 0 ∧
      (∀ v ∈ vpnRange start (start + len),
        (mmap t start len port).2.memory_set.lookup v = some (mmapPermission port))) := by
  refine ⟨?_, ?_, ?_⟩
  · intro hfail
    by_cases hal : start % PAGE_SIZE ≠ 0
    · rw [mmap_unaligned t start len port hal]
    · by_cases hpt : port &&& (U64MOD - 8) ≠ 0 ∨ port &&& 0x7 = 0
      · rw [mmap_badport t start len port hal hpt]
      · rcases hfail with hf | hf | hf | hf
        · exact absurd hf hal
        · exact absurd (Or.inl hf) hpt
        · exact absurd (Or.inr hf) hpt
        · obtain ⟨v, hvmem, hvm⟩ := hf
          have hanym : (vpnRange start (start + len)).any
              (fun v => t.memory_set.mappedB v) = true := by
            rw [List.any_eq_true]
            exact ⟨v, hvmem, hvm⟩
          rw [mmap_inner t start len port hal hpt,
            insert_framed_area_fail _ _ _ _ (Or.inr (Or.inr hanym))]
  · intro hres
    by_cases hal : start % PAGE_SIZE ≠ 0
    · rw [mmap_unaligned t start len port hal]
    · by_cases hpt : port &&& (U64MOD - 8) ≠ 0 ∨ port &&& 0x7 = 0
      · rw [mmap_badport t start len port hal hpt]
      · by_cases hlen : (vpnRange start (start + len)).length = 0
        · rw [mmap_inner t start len port hal hpt,
            insert_framed_area_fail _ _ _ _ (Or.inr (Or.inl hlen))]
        · by_cases hanym : (vpnRange start (start + len)).any
              (fun v => t.memory_set.mappedB v) = true
          · rw [mmap_inner t start len port hal hpt,
              insert_framed_area_fail _ _ _ _ (Or.inr (Or.inr hanym))]
          · rw [mmap_inner t start len port hal hpt,
              insert_framed_area_ok _ _ _ _ (by omega) hlen
                (Bool.eq_false_iff.mpr hanym)] at hres
            simp at hres
  · rintro ⟨hal, hp1, hp2, hlpos, hfree⟩
    have haln : ¬ start % PAGE_SIZE ≠ 0 := by omega
    have hptn : ¬ (port &&& (U64MOD - 8) ≠ 0 ∨ port &&& 0x7 = 0) := by
      rintro (hh | hh)
      · exact hh hp1
      · exact hp2 hh
    have hanym : (vpnRange start (start + len)).any
        (fun v => t.memory_set.mappedB v) = false := by
      rw [← Bool.not_eq_true, List.any_eq_true]
      rintro ⟨v, hvmem, hvm⟩
      rw [hfree v hvmem] at hvm
      exact absurd hvm (by simp)
    rw [mmap_inner t start len port haln hptn,
      insert_framed_area_ok _ _ _ _ hal (vpnRange_len_pos start len hal hlpos) hanym]
    refine ⟨rfl, ?_⟩
    intro v hvmem
    show ((t.memory_set.mapped ++
        (vpnRange start (start + len)).map (fun u => (u, mmapPermission port))).find?
        (fun p => p.1 == v)).map (fun p => p.2) = some (mmapPermission port)
    rw [find?_append_of_none _ _ _ (mappedB_false_find_none _ _ (hfree v hvmem))]
    exact find?_map_const_perm (mmapPermission port) v _ hvmem

/-- Witness for claim C4 at a concrete call: on an empty address space,
`mmap(0x10000000, 0x4000, 0b011)` returns 0 and maps page
`0x10000000 / 4096` read-write-user; `mmap(0x10000001, ...)` would fail
and change nothing. -/
theorem mmap_spec_witness :
    (mmap (ctask 0) 0x10000000 0x4000 3).1 = 0 ∧
    (mmap (ctask 0) 0x10000000 0x4000 3).2.memory_set.lookup 0x10000 =
      some (mmapPermission 3) ∧
    (mmap (ctask 0) 0x10000001 0x1000 1).1 = -1 ∧
    (mmap (ctask 0) 0x10000001 0x1000 1).2 = ctask 0 := by
  have hs := mmap_spec (ctask 0) 0x10000000 0x4000 3
  have hgood := hs.2.2 ⟨by decide, by decide, by decide, by decide, by decide⟩
  have hb := mmap_spec (ctask 0) 0x10000001 0x1000 1
  have hbad := hb.1 (Or.inl (by decide))
  refine ⟨hgood.1, ?_, hbad, hb.2.1 hbad⟩
  exact hgood.2 0x10000 (by decide)

end OS5
